import Mathlib

/-!
Verification of the atg-tlink telemetry synchronization pipeline.

This file shallowly embeds the Python modules `app/db.py`, `app/sync_service.py`,
`app/log_utils.py`, `app/tlink.py` and `app/atg_export.py` as executable Lean
definitions (strings become `List Char`, JSON-ish Python values become `PyVal`,
the MySQL store becomes an explicit record of row lists, fallible code returns
`Option`/`Except`), and proves or refutes the frozen specification claims
about them.
-/

set_option maxHeartbeats 2000000
set_option maxRecDepth 4000

namespace TLink

/-- Python strings are modelled as lists of characters. -/
abbrev Str := List Char

/-- Model of a Python/JSON value as it flows through payload dicts, DB columns
and sensor snapshots: `none` is Python `None` / SQL `NULL`. -/
inductive PyVal where
  | none : PyVal
  | int (n : Int) : PyVal
  | str (s : Str) : PyVal
  | bool (b : Bool) : PyVal
  | list (elems : List PyVal) : PyVal
  | dict (entries : List (Str × PyVal)) : PyVal
  deriving Repr

mutual

/-- Structural boolean equality on `PyVal` values. -/
def beqVal : PyVal → PyVal → Bool
  | .none, .none => true
  | .int a, .int b => a == b
  | .str a, .str b => a == b
  | .bool a, .bool b => a == b
  | .list a, .list b => beqValList a b
  | .dict a, .dict b => beqEntries a b
  | _, _ => false

def beqValList : List PyVal → List PyVal → Bool
  | [], [] => true
  | x :: xs, y :: ys => beqVal x y && beqValList xs ys
  | _, _ => false

def beqEntries : List (Str × PyVal) → List (Str × PyVal) → Bool
  | [], [] => true
  | (k, v) :: xs, (l, w) :: ys => k == l && beqVal v w && beqEntries xs ys
  | _, _ => false

end

mutual

theorem beqVal_refl : ∀ v : PyVal, beqVal v v = true
  | .none => rfl
  | .int _ => by simp [beqVal]
  | .str _ => by simp [beqVal]
  | .bool _ => by simp [beqVal]
  | .list a => by simp [beqVal, beqValList_refl a]
  | .dict a => by simp [beqVal, beqEntries_refl a]

theorem beqValList_refl : ∀ l : List PyVal, beqValList l l = true
  | [] => rfl
  | x :: xs => by simp [beqValList, beqVal_refl x, beqValList_refl xs]

theorem beqEntries_refl : ∀ l : List (Str × PyVal), beqEntries l l = true
  | [] => rfl
  | (_, v) :: xs => by simp [beqEntries, beqVal_refl v, beqEntries_refl xs]

end

mutual

theorem beqVal_sound : ∀ a b : PyVal, beqVal a b = true → a = b
  | .none, .none, _ => rfl
  | .none, .int _, h | .none, .str _, h | .none, .bool _, h
  | .none, .list _, h | .none, .dict _, h => by simp [beqVal] at h
  | .int _, .none, h | .int _, .str _, h | .int _, .bool _, h
  | .int _, .list _, h | .int _, .dict _, h => by simp [beqVal] at h
  | .str _, .none, h | .str _, .int _, h | .str _, .bool _, h
  | .str _, .list _, h | .str _, .dict _, h => by simp [beqVal] at h
  | .bool _, .none, h | .bool _, .int _, h | .bool _, .str _, h
  | .bool _, .list _, h | .bool _, .dict _, h => by simp [beqVal] at h
  | .list _, .none, h | .list _, .int _, h | .list _, .str _, h
  | .list _, .bool _, h | .list _, .dict _, h => by simp [beqVal] at h
  | .dict _, .none, h | .dict _, .int _, h | .dict _, .str _, h
  | .dict _, .bool _, h | .dict _, .list _, h => by simp [beqVal] at h
  | .int a, .int b, h => by simp [beqVal] at h; simp [h]
  | .str a, .str b, h => by simp [beqVal] at h; simp [h]
  | .bool a, .bool b, h => by simp [beqVal] at h; simp [h]
  | .list a, .list b, h => by simp [beqVal] at h; simp [beqValList_sound a b h]
  | .dict a, .dict b, h => by simp [beqVal] at h; simp [beqEntries_sound a b h]

theorem beqValList_sound : ∀ a b : List PyVal, beqValList a b = true → a = b
  | [], [], _ => rfl
  | [], _ :: _, h => by simp [beqValList] at h
  | _ :: _, [], h => by simp [beqValList] at h
  | x :: xs, y :: ys, h => by
    simp [beqValList] at h
    simp [beqVal_sound x y h.1, beqValList_sound xs ys h.2]

theorem beqEntries_sound : ∀ a b : List (Str × PyVal), beqEntries a b = true → a = b
  | [], [], _ => rfl
  | [], _ :: _, h => by simp [beqEntries] at h
  | _ :: _, [], h => by simp [beqEntries] at h
  | (k, v) :: xs, (l, w) :: ys, h => by
    simp [beqEntries] at h
    simp [h.1.1, beqVal_sound v w h.1.2, beqEntries_sound xs ys h.2]

end

instance : DecidableEq PyVal := fun a b =>
  if h : beqVal a b = true then isTrue (beqVal_sound a b h)
  else isFalse (fun he => h (he ▸ beqVal_refl a))

/-- Python truthiness (`bool(v)`): `None`, `0`, `""`, `False`, `[]`, and the
empty dict are falsy. -/
def pyTruthy : PyVal → Bool
  | .none => false
  | .int n => n != 0
  | .str s => !s.isEmpty
  | .bool b => b
  | .list l => !l.isEmpty
  | .dict d => !d.isEmpty

/-- Python `a or b`: return `a` when it is truthy, otherwise `b`. -/
def pyOr (a b : PyVal) : PyVal := if pyTruthy a then a else b

/-- Python `d.get(key)` on a dict value: the entry for `key`, or `None`.
On non-dict values the model returns `None` (the code only applies it to dicts). -/
def pyGet (v : PyVal) (key : Str) : PyVal :=
  match v with
  | .dict entries =>
    match entries.find? (fun kv => kv.1 = key) with
    | Option.none => .none
    | some kv => kv.2
  | _ => .none

/-- SQL `COALESCE(VALUES(col), col)` of an upsert: the incoming value unless it
is `NULL`, in which case the stored value is kept. -/
def pyCoalesce (incoming stored : PyVal) : PyVal :=
  if incoming = PyVal.none then stored else incoming

/-- Python helper `_to_bit` from db.py: `None` stays `NULL`, otherwise 0/1. -/
def to_bit : Option Bool → PyVal
  | Option.none => .none
  | some b => .int (if b then 1 else 0)

/-! ### The relational store (db.py)

Rows of the `devices`, `sensors` and `sensor_readings` tables. Column values
are `PyVal` with `PyVal.none` standing for SQL `NULL`.

Modelled from the spec: the unique keys of the tables are taken from the spec
for `sql/schema.sql`, which is not part of the sources: `devices.external_id`
is the unique key of `devices`, `(device_id, external_id)` of `sensors`, and
`(sensor_id, recorded_at)` of `sensor_readings` (the dedupe key hit by
`INSERT IGNORE`). -/

structure DeviceRow where
  id : Nat
  external_id : PyVal
  parent_user_id : PyVal
  user_id : PyVal
  device_name : PyVal
  device_no : PyVal
  group_id : PyVal
  lat : PyVal
  lng : PyVal
  product_id : PyVal
  product_type : PyVal
  protocol_label : PyVal
  last_flag : PyVal
  last_raw_payload : PyVal
  last_push_time : PyVal
  deriving Repr, DecidableEq

structure SensorRow where
  id : Nat
  external_id : PyVal
  device_id : Nat
  sensor_type_id : PyVal
  sensor_name : PyVal
  is_line : PyVal
  is_alarm : PyVal
  unit : PyVal
  latest_value : PyVal
  latest_recorded_at : PyVal
  deriving Repr, DecidableEq

structure ReadingRow where
  sensor_id : Nat
  recorded_at : PyVal
  sensor_timestamp : PyVal
  is_alarm : PyVal
  is_line : PyVal
  raw_value : PyVal
  scaled_value : PyVal
  raw_payload : PyVal
  deriving Repr, DecidableEq

structure DB where
  devices : List DeviceRow
  sensors : List SensorRow
  readings : List ReadingRow
  nextDeviceKey : Nat
  nextSensorKey : Nat
  deriving Repr, DecidableEq

/-- Incoming column values of one `upsert_device` call (its parameters after
`external_id`, in source order). -/
structure DevArgs where
  user_id : PyVal
  parent_user_id : PyVal
  device_name : PyVal
  device_no : PyVal
  group_id : PyVal
  lat : PyVal
  lng : PyVal
  product_id : PyVal
  product_type : PyVal
  protocol_label : PyVal
  flag : PyVal
  raw_payload : PyVal
  push_time : PyVal
  deriving Repr, DecidableEq

/-- The updatable columns of a device row (every column `upsert_device` touches). -/
inductive DevCol where
  | parentUserId | userId | deviceName | deviceNo | groupId | lat | lng
  | productId | productType | protocolLabel | lastFlag | lastRawPayload
  | lastPushTime
  deriving Repr, DecidableEq

def devGet : DevCol → DeviceRow → PyVal
  | .parentUserId, r => r.parent_user_id
  | .userId, r => r.user_id
  | .deviceName, r => r.device_name
  | .deviceNo, r => r.device_no
  | .groupId, r => r.group_id
  | .lat, r => r.lat
  | .lng, r => r.lng
  | .productId, r => r.product_id
  | .productType, r => r.product_type
  | .protocolLabel, r => r.protocol_label
  | .lastFlag, r => r.last_flag
  | .lastRawPayload, r => r.last_raw_payload
  | .lastPushTime, r => r.last_push_time

def devArg : DevCol → DevArgs → PyVal
  | .parentUserId, a => a.parent_user_id
  | .userId, a => a.user_id
  | .deviceName, a => a.device_name
  | .deviceNo, a => a.device_no
  | .groupId, a => a.group_id
  | .lat, a => a.lat
  | .lng, a => a.lng
  | .productId, a => a.product_id
  | .productType, a => a.product_type
  | .protocolLabel, a => a.protocol_label
  | .lastFlag, a => a.flag
  | .lastRawPayload, a => a.raw_payload
  | .lastPushTime, a => a.push_time

/-- The `SELECT * FROM devices WHERE external_id = %s` lookup
(`fetch_device_by_external_id` / the read-back inside `upsert_device`). -/
def fetch_device (db : DB) (external_id : PyVal) : Option DeviceRow :=
  db.devices.find? (fun r => r.external_id = external_id)

/-- Replace the first element satisfying `p` by `f` applied to it. -/
def updateFirst (p : α → Bool) (f : α → α) : List α → List α
  | [] => []
  | x :: xs => if p x then f x :: xs else x :: updateFirst p f xs

/-- The `ON DUPLICATE KEY UPDATE` clause of `upsert_device`: each column is
`COALESCE(VALUES(col), col)`. -/
def mergeDeviceRow (a : DevArgs) (r : DeviceRow) : DeviceRow :=
  { r with
    parent_user_id := pyCoalesce a.parent_user_id r.parent_user_id
    user_id := pyCoalesce a.user_id r.user_id
    device_name := pyCoalesce a.device_name r.device_name
    device_no := pyCoalesce a.device_no r.device_no
    group_id := pyCoalesce a.group_id r.group_id
    lat := pyCoalesce a.lat r.lat
    lng := pyCoalesce a.lng r.lng
    product_id := pyCoalesce a.product_id r.product_id
    product_type := pyCoalesce a.product_type r.product_type
    protocol_label := pyCoalesce a.protocol_label r.protocol_label
    last_flag := pyCoalesce a.flag r.last_flag
    last_raw_payload := pyCoalesce a.raw_payload r.last_raw_payload
    last_push_time := pyCoalesce a.push_time r.last_push_time }

/-- Fresh row inserted by `upsert_device` when no row has this `external_id`. -/
def newDeviceRow (key : Nat) (external_id : PyVal) (a : DevArgs) : DeviceRow :=
  { id := key
    external_id := external_id
    parent_user_id := a.parent_user_id
    user_id := a.user_id
    device_name := a.device_name
    device_no := a.device_no
    group_id := a.group_id
    lat := a.lat
    lng := a.lng
    product_id := a.product_id
    product_type := a.product_type
    protocol_label := a.protocol_label
    last_flag := a.flag
    last_raw_payload := a.raw_payload
    last_push_time := a.push_time }

/-- Embedding of `upsert_device` (db.py:199): `INSERT ... ON DUPLICATE KEY
UPDATE` keyed by `external_id`, followed by the read-back `SELECT`. -/
def upsert_device (db : DB) (external_id : PyVal) (a : DevArgs) :
    DB × Option DeviceRow :=
  let db' :=
    match fetch_device db external_id with
    | Option.none =>
      { db with
        devices := db.devices ++ [newDeviceRow db.nextDeviceKey external_id a]
        nextDeviceKey := db.nextDeviceKey + 1 }
    | some _ =>
      { db with
        devices :=
          updateFirst (fun r => r.external_id = external_id) (mergeDeviceRow a)
            db.devices }
  (db', fetch_device db' external_id)

/-- Incoming column values of one `upsert_sensor` call. The `is_line` and
`is_alarm` parameters are Python `Optional[bool]`, stored through `_to_bit`. -/
structure SenArgs where
  sensor_type_id : PyVal
  sensor_name : PyVal
  is_line : Option Bool
  is_alarm : Option Bool
  unit : PyVal
  latest_value : PyVal
  recorded_at : PyVal
  deriving Repr, DecidableEq

inductive SenCol where
  | sensorTypeId | sensorName | isLine | isAlarm | unit | latestValue
  | latestRecordedAt
  deriving Repr, DecidableEq

def senGet : SenCol → SensorRow → PyVal
  | .sensorTypeId, r => r.sensor_type_id
  | .sensorName, r => r.sensor_name
  | .isLine, r => r.is_line
  | .isAlarm, r => r.is_alarm
  | .unit, r => r.unit
  | .latestValue, r => r.latest_value
  | .latestRecordedAt, r => r.latest_recorded_at

/-- The value `upsert_sensor` sends for each column (`_to_bit` applied to the
two flags). -/
def senArg : SenCol → SenArgs → PyVal
  | .sensorTypeId, a => a.sensor_type_id
  | .sensorName, a => a.sensor_name
  | .isLine, a => to_bit a.is_line
  | .isAlarm, a => to_bit a.is_alarm
  | .unit, a => a.unit
  | .latestValue, a => a.latest_value
  | .latestRecordedAt, a => a.recorded_at

/-- The sensor lookup by its composite unique key `(device_id, external_id)`. -/
def fetch_sensor (db : DB) (device_id : Nat) (external_id : PyVal) :
    Option SensorRow :=
  db.sensors.find? (fun r => r.device_id = device_id ∧ r.external_id = external_id)

def mergeSensorRow (a : SenArgs) (r : SensorRow) : SensorRow :=
  { r with
    sensor_type_id := pyCoalesce a.sensor_type_id r.sensor_type_id
    sensor_name := pyCoalesce a.sensor_name r.sensor_name
    is_line := pyCoalesce (to_bit a.is_line) r.is_line
    is_alarm := pyCoalesce (to_bit a.is_alarm) r.is_alarm
    unit := pyCoalesce a.unit r.unit
    latest_value := pyCoalesce a.latest_value r.latest_value
    latest_recorded_at := pyCoalesce a.recorded_at r.latest_recorded_at }

def newSensorRow (key : Nat) (device_id : Nat) (external_id : PyVal)
    (a : SenArgs) : SensorRow :=
  { id := key
    external_id := external_id
    device_id := device_id
    sensor_type_id := a.sensor_type_id
    sensor_name := a.sensor_name
    is_line := to_bit a.is_line
    is_alarm := to_bit a.is_alarm
    unit := a.unit
    latest_value := a.latest_value
    latest_recorded_at := a.recorded_at }

/-- Embedding of `upsert_sensor` (db.py:268): coalesce-upsert keyed by
`(device_id, external_id)`, followed by the read-back `SELECT`. -/
def upsert_sensor (db : DB) (device_id : Nat) (external_id : PyVal)
    (a : SenArgs) : DB × Option SensorRow :=
  let db' :=
    match fetch_sensor db device_id external_id with
    | Option.none =>
      { db with
        sensors := db.sensors ++ [newSensorRow db.nextSensorKey device_id external_id a]
        nextSensorKey := db.nextSensorKey + 1 }
    | some _ =>
      { db with
        sensors :=
          updateFirst
            (fun r => r.device_id = device_id ∧ r.external_id = external_id)
            (mergeSensorRow a) db.sensors }
  (db', fetch_sensor db' device_id external_id)

/-- Does a reading row with this `(sensor_id, recorded_at)` key already exist? -/
def containsReading (db : DB) (sensor_id : Nat) (recorded_at : PyVal) : Bool :=
  db.readings.any (fun r => r.sensor_id = sensor_id ∧ r.recorded_at = recorded_at)

structure ReadArgs where
  sensor_timestamp : PyVal
  is_alarm : Option Bool
  is_line : Option Bool
  raw_value : PyVal
  scaled_value : PyVal
  raw_payload : PyVal
  deriving Repr, DecidableEq

/-- Embedding of `insert_reading` (db.py:319): `INSERT IGNORE` keyed by
`(sensor_id, recorded_at)` — the row is appended when the key is absent and
the statement is a no-op when it is present. -/
def insert_reading (db : DB) (sensor_id : Nat) (recorded_at : PyVal)
    (a : ReadArgs) : DB :=
  if containsReading db sensor_id recorded_at then db
  else
    { db with
      readings := db.readings ++
        [{ sensor_id := sensor_id
           recorded_at := recorded_at
           sensor_timestamp := a.sensor_timestamp
           is_alarm := to_bit a.is_alarm
           is_line := to_bit a.is_line
           raw_value := a.raw_value
           scaled_value := a.scaled_value
           raw_payload := a.raw_payload }] }

/-! ### Claims C1 and C2: coalesce-upsert and at-most-once reading insert -/

theorem pyCoalesce_of_none (stored : PyVal) :
    pyCoalesce PyVal.none stored = stored := by
  simp [pyCoalesce]

theorem pyCoalesce_of_ne_none {incoming : PyVal} (stored : PyVal)
    (h : incoming ≠ PyVal.none) : pyCoalesce incoming stored = incoming := by
  simp [pyCoalesce, h]

theorem pyCoalesce_ne_none {incoming stored : PyVal} (h : stored ≠ PyVal.none) :
    pyCoalesce incoming stored ≠ PyVal.none := by
  unfold pyCoalesce
  split <;> simp_all

theorem find?_updateFirst {p : α → Bool} {f : α → α} {l : List α} {old : α}
    (h : l.find? p = some old) (hf : p (f old) = true) :
    (updateFirst p f l).find? p = some (f old) := by
  induction l with
  | nil => simp at h
  | cons x xs ih =>
    by_cases hp : p x = true
    · rw [List.find?_cons_of_pos _ hp] at h
      injection h with h
      subst h
      simp [updateFirst, hp, List.find?_cons_of_pos _ hf]
    · have hp' : p x = false := by simpa using hp
      rw [List.find?_cons_of_neg _ (by simp [hp'])] at h
      simp [updateFirst, hp', List.find?_cons_of_neg, ih h]

theorem devGet_mergeDeviceRow (c : DevCol) (a : DevArgs) (r : DeviceRow) :
    devGet c (mergeDeviceRow a r) = pyCoalesce (devArg c a) (devGet c r) := by
  cases c <;> rfl

theorem senGet_mergeSensorRow (c : SenCol) (a : SenArgs) (r : SensorRow) :
    senGet c (mergeSensorRow a r) = pyCoalesce (senArg c a) (senGet c r) := by
  cases c <;> rfl

theorem mergeDeviceRow_external_id (a : DevArgs) (r : DeviceRow) :
    (mergeDeviceRow a r).external_id = r.external_id := rfl

theorem mergeSensorRow_keys (a : SenArgs) (r : SensorRow) :
    (mergeSensorRow a r).device_id = r.device_id ∧
      (mergeSensorRow a r).external_id = r.external_id := ⟨rfl, rfl⟩

/-- C1. Coalesce-upsert of device and sensor state: for every device (resp.
sensor) already stored, a second `upsert_device` (resp. `upsert_sensor`) call
for the same external identity merges column-wise: a `NULL` incoming value
leaves the stored value unchanged, a non-`NULL` incoming value overwrites it,
and no column that was non-`NULL` ever becomes `NULL`. -/
theorem upsert_coalesces_never_nulls_stored_state :
    (∀ (db : DB) (e : PyVal) (a : DevArgs) (old : DeviceRow),
      fetch_device db e = some old →
      ∃ upd, fetch_device (upsert_device db e a).1 e = some upd ∧
        ∀ c : DevCol,
          (devArg c a = PyVal.none → devGet c upd = devGet c old) ∧
          (devArg c a ≠ PyVal.none → devGet c upd = devArg c a) ∧
          (devGet c old ≠ PyVal.none → devGet c upd ≠ PyVal.none)) ∧
    (∀ (db : DB) (d : Nat) (e : PyVal) (a : SenArgs) (old : SensorRow),
      fetch_sensor db d e = some old →
      ∃ upd, fetch_sensor (upsert_sensor db d e a).1 d e = some upd ∧
        ∀ c : SenCol,
          (senArg c a = PyVal.none → senGet c upd = senGet c old) ∧
          (senArg c a ≠ PyVal.none → senGet c upd = senArg c a) ∧
          (senGet c old ≠ PyVal.none → senGet c upd ≠ PyVal.none)) := by
  constructor
  · intro db e a old h
    have hold : old.external_id = e := by
      have := List.find?_some h
      simpa using this
    refine ⟨mergeDeviceRow a old, ?_, ?_⟩
    · unfold upsert_device
      rw [show fetch_device db e = some old from h]
      simp only [fetch_device] at h ⊢
      exact find?_updateFirst h
        (by simp [mergeDeviceRow_external_id, hold])
    · intro c
      rw [devGet_mergeDeviceRow]
      refine ⟨fun hn => by rw [hn, pyCoalesce_of_none],
        fun hn => pyCoalesce_of_ne_none _ hn,
        fun hn => pyCoalesce_ne_none hn⟩
  · intro db d e a old h
    have hold : old.device_id = d ∧ old.external_id = e := by
      have := List.find?_some h
      simpa using this
    refine ⟨mergeSensorRow a old, ?_, ?_⟩
    · unfold upsert_sensor
      rw [show fetch_sensor db d e = some old from h]
      simp only [fetch_sensor] at h ⊢
      exact find?_updateFirst h
        (by simp [(mergeSensorRow_keys a old).1, (mergeSensorRow_keys a old).2,
              hold.1, hold.2])
    · intro c
      rw [senGet_mergeSensorRow]
      refine ⟨fun hn => by rw [hn, pyCoalesce_of_none],
        fun hn => pyCoalesce_of_ne_none _ hn,
        fun hn => pyCoalesce_ne_none hn⟩

/-- Sample stored device row for the C1 witness. -/
def sampleDeviceRow : DeviceRow :=
  { id := 1
    external_id := PyVal.int 42
    parent_user_id := PyVal.none
    user_id := PyVal.none
    device_name := PyVal.str [Char.ofNat 116, Char.ofNat 97]
    device_no := PyVal.none
    group_id := PyVal.int 7
    lat := PyVal.none
    lng := PyVal.none
    product_id := PyVal.none
    product_type := PyVal.none
    protocol_label := PyVal.none
    last_flag := PyVal.none
    last_raw_payload := PyVal.none
    last_push_time := PyVal.none }

def sampleSensorRow : SensorRow :=
  { id := 1
    external_id := PyVal.int 5
    device_id := 1
    sensor_type_id := PyVal.int 3
    sensor_name := PyVal.none
    is_line := PyVal.none
    is_alarm := PyVal.none
    unit := PyVal.none
    latest_value := PyVal.str [Char.ofNat 49]
    latest_recorded_at := PyVal.none }

def sampleDB : DB :=
  { devices := [sampleDeviceRow]
    sensors := [sampleSensorRow]
    readings := []
    nextDeviceKey := 2
    nextSensorKey := 2 }

def sampleDevArgs : DevArgs :=
  { user_id := PyVal.none
    parent_user_id := PyVal.none
    device_name := PyVal.none
    device_no := PyVal.none
    group_id := PyVal.none
    lat := PyVal.str [Char.ofNat 49]
    lng := PyVal.none
    product_id := PyVal.none
    product_type := PyVal.none
    protocol_label := PyVal.none
    flag := PyVal.none
    raw_payload := PyVal.none
    push_time := PyVal.none }

def sampleSenArgs : SenArgs :=
  { sensor_type_id := PyVal.none
    sensor_name := PyVal.none
    is_line := some true
    is_alarm := Option.none
    unit := PyVal.none
    latest_value := PyVal.none
    recorded_at := PyVal.none }

/-- Witness for C1 at a concrete store. -/
theorem upsert_coalesces_never_nulls_stored_state_witness :
    (∃ upd,
      fetch_device (upsert_device sampleDB (PyVal.int 42) sampleDevArgs).1
          (PyVal.int 42) = some upd ∧
        ∀ c : DevCol,
          (devArg c sampleDevArgs = PyVal.none →
            devGet c upd = devGet c sampleDeviceRow) ∧
          (devArg c sampleDevArgs ≠ PyVal.none →
            devGet c upd = devArg c sampleDevArgs) ∧
          (devGet c sampleDeviceRow ≠ PyVal.none → devGet c upd ≠ PyVal.none)) ∧
    (∃ upd,
      fetch_sensor (upsert_sensor sampleDB 1 (PyVal.int 5) sampleSenArgs).1 1
          (PyVal.int 5) = some upd ∧
        ∀ c : SenCol,
          (senArg c sampleSenArgs = PyVal.none →
            senGet c upd = senGet c sampleSensorRow) ∧
          (senArg c sampleSenArgs ≠ PyVal.none →
            senGet c upd = senArg c sampleSenArgs) ∧
          (senGet c sampleSensorRow ≠ PyVal.none → senGet c upd ≠ PyVal.none)) :=
  ⟨upsert_coalesces_never_nulls_stored_state.1 sampleDB (PyVal.int 42)
      sampleDevArgs sampleDeviceRow (by decide),
    upsert_coalesces_never_nulls_stored_state.2 sampleDB 1 (PyVal.int 5)
      sampleSenArgs sampleSensorRow (by decide)⟩

/-- C2. `insert_reading` is at-most-once keyed by `(sensor_id, recorded_at)`:
a call whose key already exists is a no-op (no new row, no error, no change to
existing rows), and two calls with distinct fresh `recorded_at` values add two
rows. -/
theorem insert_reading_at_most_once :
    (∀ (db : DB) (s : Nat) (r : PyVal) (a : ReadArgs),
      containsReading db s r = true → insert_reading db s r a = db) ∧
    (∀ (db : DB) (s : Nat) (r : PyVal) (a : ReadArgs),
      containsReading (insert_reading db s r a) s r = true) ∧
    (∀ (db : DB) (s : Nat) (r1 r2 : PyVal) (a1 a2 : ReadArgs),
      r1 ≠ r2 → containsReading db s r1 = false →
      containsReading db s r2 = false →
      (insert_reading (insert_reading db s r1 a1) s r2 a2).readings.length =
        db.readings.length + 2) := by
  refine ⟨?_, ?_, ?_⟩
  · intro db s r a h
    simp [insert_reading, h]
  · intro db s r a
    unfold insert_reading
    split
    · assumption
    · simp [containsReading]
  · intro db s r1 r2 a1 a2 hne h1 h2
    have hlen : ∀ (d : DB) (s0 : Nat) (r0 : PyVal) (a0 : ReadArgs),
        containsReading d s0 r0 = false →
        (insert_reading d s0 r0 a0).readings.length = d.readings.length + 1 := by
      intro d s0 r0 a0 h
      simp [insert_reading, h]
    have h2' : containsReading (insert_reading db s r1 a1) s r2 = false := by
      unfold insert_reading
      rw [h1]
      simp only [Bool.false_eq_true, if_false]
      unfold containsReading at h2 ⊢
      simp only [List.any_append, List.any_cons, List.any_nil, Bool.or_false]
      rw [h2]
      simp [hne]
    rw [hlen _ _ _ _ h2', hlen _ _ _ _ h1]

def sampleReadArgs : ReadArgs :=
  { sensor_timestamp := PyVal.none
    is_alarm := some false
    is_line := Option.none
    raw_value := PyVal.str [Char.ofNat 49]
    scaled_value := PyVal.none
    raw_payload := PyVal.none }

/-- Witness for C2 at a concrete store: replaying an insert is a no-op and two
distinct timestamps add two rows. -/
theorem insert_reading_at_most_once_witness :
    (containsReading
        (insert_reading sampleDB 1 (PyVal.int 100) sampleReadArgs) 1
        (PyVal.int 100) = true) ∧
    (insert_reading (insert_reading sampleDB 1 (PyVal.int 100) sampleReadArgs)
        1 (PyVal.int 100) sampleReadArgs =
      insert_reading sampleDB 1 (PyVal.int 100) sampleReadArgs) ∧
    ((insert_reading (insert_reading sampleDB 1 (PyVal.int 100) sampleReadArgs)
        1 (PyVal.int 101) sampleReadArgs).readings.length =
      sampleDB.readings.length + 2) :=
  ⟨insert_reading_at_most_once.2.1 sampleDB 1 (PyVal.int 100) sampleReadArgs,
    insert_reading_at_most_once.1 _ 1 (PyVal.int 100) sampleReadArgs
      (insert_reading_at_most_once.2.1 sampleDB 1 (PyVal.int 100) sampleReadArgs),
    insert_reading_at_most_once.2.2 sampleDB 1 (PyVal.int 100) (PyVal.int 101)
      sampleReadArgs sampleReadArgs (by decide) (by decide) (by decide)⟩

/-! ### Claim C9: the ATG export connect flag (atg_export.py:152-161)

Only the connectivity computation of `_row_to_atg_entry` is embedded here; the
floating-point tank geometry of the rest of that function plays no part in the
claim. The `timedelta.total_seconds()` age and the TTL are modelled as integer
seconds (only their ordering is used). -/

/-- Embedding of the `is_connected` computation of `_row_to_atg_entry`:
`last_push` is the coerced `last_push_time` of the row (as an epoch instant),
`now` the current instant, `ttl` the configured
`ATG_EXPORT_CONNECT_TTL_SECONDS`. The source line is
`is_connected = True if ttl <= 0 else delta.total_seconds() <= ttl or True`. -/
def row_to_atg_entry_connect (last_push : Option Int) (ttl : Int) (now : Int) :
    Bool :=
  match last_push with
  | Option.none => true
  | some reference =>
    if ttl ≤ 0 then true else (decide (now - reference ≤ ttl) || true)

/-- C9. The exported connect flag always evaluates to true: for every row with
a known last-push instant and every positive TTL it is true, whether or not
the age exceeds the TTL (the comparison is absorbed by the stray `or True`). -/
theorem atg_connect_flag_always_true (reference now ttl : Int)
    (_httl : 0 < ttl) :
    row_to_atg_entry_connect (some reference) ttl now = true ∧
      (ttl < now - reference →
        row_to_atg_entry_connect (some reference) ttl now = true) := by
  have h : row_to_atg_entry_connect (some reference) ttl now = true := by
    unfold row_to_atg_entry_connect
    split <;> simp
  exact ⟨h, fun _ => h⟩

/-- Witness for C9: a push 100000 seconds old against a 900 second TTL is
still reported connected. -/
theorem atg_connect_flag_always_true_witness :
    row_to_atg_entry_connect (some 0) 900 100000 = true ∧
      (900 < (100000 : Int) - 0 →
        row_to_atg_entry_connect (some 0) 900 100000 = true) :=
  atg_connect_flag_always_true 0 100000 900 (by decide)

/-! ### Claim C3: remote API 401 handling (sync_service.py:233-275, tlink.py)

The OAuth client of tlink.py is embedded as a cache state over abstract token
identities drawn from a counter; clock-based expiry is abstracted into a
predicate on the cached token, and the HTTP world into a function from the
request index to a response. -/

/-- The mutable state of `TLinkOAuthClient`: the cached access token (`None`
after `invalidate_token`) and the supply counter producing the identity of the
next freshly fetched token. -/
structure OAuthState where
  accessToken : Option Nat
  nextToken : Nat
  deriving Repr, DecidableEq

/-- Embedding of `TLinkOAuthClient.invalidate_token`: clear the cache. -/
def invalidate_token (st : OAuthState) : OAuthState :=
  { st with accessToken := Option.none }

/-- Embedding of `TLinkOAuthClient._ensure_token` under an expiry oracle: a
cached, unexpired token is reused, otherwise `_refresh_token` stores the next
fresh token. -/
def ensure_token (isExpired : Nat → Bool) (st : OAuthState) :
    Nat × OAuthState :=
  match st.accessToken with
  | some t =>
    if isExpired t then
      (st.nextToken, { accessToken := some st.nextToken, nextToken := st.nextToken + 1 })
    else (t, st)
  | Option.none =>
    (st.nextToken, { accessToken := some st.nextToken, nextToken := st.nextToken + 1 })

/-- One HTTP response of the TLINK endpoint: its status code and its JSON body
(`Option.none` models a non-JSON body). -/
structure HttpResponse where
  status : Nat
  json : Option PyVal
  deriving Repr

/-- Terminal outcomes of `_invoke_tlink_sensor_api`: a parsed payload, a
raised `requests.HTTPError`, or a raised `ValueError` (non-JSON body). -/
inductive InvokeOutcome where
  | ok (payload : PyVal)
  | httpError (status : Nat)
  | jsonError
  deriving Repr

/-- Observable trace of one `_invoke_tlink_sensor_api` call: the token used by
each HTTP request, in order, and the number of `invalidate_token` calls. -/
structure InvokeTrace where
  requests : List Nat
  invalidations : Nat
  deriving Repr, DecidableEq

/-- Classification of one response inside the loop of
`_invoke_tlink_sensor_api`: `raise_for_status` followed by `.json()`.
`Option.none` means "401 on the first attempt": invalidate and continue; on
the second attempt (`first = false`) a 401 is re-raised like any error. -/
def classify_response (resp : HttpResponse) (first : Bool) :
    Option InvokeOutcome :=
  if resp.status ≥ 400 then
    if resp.status = 401 ∧ first then Option.none
    else some (InvokeOutcome.httpError resp.status)
  else
    match resp.json with
    | some payload => some (InvokeOutcome.ok payload)
    | Option.none => some InvokeOutcome.jsonError

/-- Embedding of `_invoke_tlink_sensor_api` (sync_service.py:233): the
two-iteration `for attempt in range(2)` loop. Each iteration obtains a bearer
token via the cache, performs the request and classifies the response; a 401
on attempt 0 invalidates the token and retries once. The final fall-through
arm is unreachable (attempt 1 never asks to continue). -/
def invoke_tlink_sensor_api (isExpired : Nat → Bool)
    (responses : Nat → HttpResponse) (st : OAuthState) :
    InvokeOutcome × OAuthState × InvokeTrace :=
  let t0 := ensure_token isExpired st
  match classify_response (responses 0) true with
  | some out => (out, t0.2, { requests := [t0.1], invalidations := 0 })
  | Option.none =>
    let st2 := invalidate_token t0.2
    let t1 := ensure_token isExpired st2
    match classify_response (responses 1) false with
    | some out => (out, t1.2, { requests := [t0.1, t1.1], invalidations := 1 })
    | Option.none =>
      (InvokeOutcome.httpError 401, t1.2,
        { requests := [t0.1, t1.1], invalidations := 1 })

theorem ensure_token_lt (isExpired : Nat → Bool) (st : OAuthState)
    (hinv : ∀ t, st.accessToken = some t → t < st.nextToken) :
    (ensure_token isExpired st).1 < (ensure_token isExpired st).2.nextToken := by
  unfold ensure_token
  match h : st.accessToken with
  | Option.none => simp
  | some t =>
    have := hinv t h
    by_cases he : isExpired t = true <;> simp [he, this]

/-- C3. Remote API 401 handling: a 401 on the first attempt causes exactly one
token invalidation and exactly one retry carrying a token freshly fetched
after the invalidation (distinct from the first token); a 401 on the retry,
or any non-401 HTTP error on either attempt, terminates the fetch with an
error after exactly those requests. -/
theorem invoke_tlink_401_invalidate_retry_once (isExpired : Nat → Bool)
    (responses : Nat → HttpResponse) (st : OAuthState)
    (hinv : ∀ t, st.accessToken = some t → t < st.nextToken) :
    ((responses 0).status = 401 →
      (invoke_tlink_sensor_api isExpired responses st).2.2.invalidations = 1 ∧
      ∃ t0 t1,
        (invoke_tlink_sensor_api isExpired responses st).2.2.requests = [t0, t1] ∧
        t0 ≠ t1) ∧
    ((responses 0).status = 401 → (responses 1).status = 401 →
      (invoke_tlink_sensor_api isExpired responses st).1 =
        InvokeOutcome.httpError 401 ∧
      (invoke_tlink_sensor_api isExpired responses st).2.2.requests.length = 2) ∧
    (∀ s, (responses 0).status = s → s ≥ 400 → s ≠ 401 →
      (invoke_tlink_sensor_api isExpired responses st).1 =
        InvokeOutcome.httpError s ∧
      (invoke_tlink_sensor_api isExpired responses st).2.2.requests.length = 1 ∧
      (invoke_tlink_sensor_api isExpired responses st).2.2.invalidations = 0) ∧
    (∀ s, (responses 0).status = 401 → (responses 1).status = s → s ≥ 400 →
      s ≠ 401 →
      (invoke_tlink_sensor_api isExpired responses st).1 =
        InvokeOutcome.httpError s ∧
      (invoke_tlink_sensor_api isExpired responses st).2.2.requests.length = 2) := by
  classical
  have htok : (ensure_token isExpired st).1 <
      (ensure_token isExpired st).2.nextToken := ensure_token_lt isExpired st hinv
  refine ⟨?_, ?_, ?_, ?_⟩
  · intro h0
    have hc0 : classify_response (responses 0) true = Option.none := by
      simp [classify_response, h0]
    refine ⟨?_, (ensure_token isExpired st).1,
        (ensure_token isExpired st).2.nextToken, ?_, by omega⟩ <;>
      (unfold invoke_tlink_sensor_api
       rw [hc0]
       cases hc1 : classify_response (responses 1) false <;>
         simp [invalidate_token, ensure_token])
  · intro h0 h1
    have hc0 : classify_response (responses 0) true = Option.none := by
      simp [classify_response, h0]
    have hc1 : classify_response (responses 1) false =
        some (InvokeOutcome.httpError 401) := by
      simp [classify_response, h1]
    unfold invoke_tlink_sensor_api
    rw [hc0, hc1]
    simp
  · intro s h0 hge hne
    have hc0 : classify_response (responses 0) true =
        some (InvokeOutcome.httpError s) := by
      simp [classify_response, h0, hge, hne]
    unfold invoke_tlink_sensor_api
    rw [hc0]
    simp
  · intro s h0 h1 hge hne
    have hc0 : classify_response (responses 0) true = Option.none := by
      simp [classify_response, h0]
    have hc1 : classify_response (responses 1) false =
        some (InvokeOutcome.httpError s) := by
      simp [classify_response, h1, hge]
    unfold invoke_tlink_sensor_api
    rw [hc0, hc1]
    simp

/-- Witness for C3: from an empty cache, a 401 answered by a 200 with a JSON
body triggers one invalidation and one retried request with a fresh token. -/
theorem invoke_tlink_401_invalidate_retry_once_witness :
    ((fun _ : Nat => ({ status := 401, json := Option.none } : HttpResponse)) 0).status
        = 401 ∧
      (invoke_tlink_sensor_api (fun _ => false)
        (fun _ => { status := 401, json := Option.none })
        { accessToken := Option.none, nextToken := 0 }).2.2.invalidations = 1 := by
  refine ⟨rfl, ?_⟩
  exact ((invoke_tlink_401_invalidate_retry_once (fun _ => false)
    (fun _ => { status := 401, json := Option.none })
    { accessToken := Option.none, nextToken := 0 }
    (by intro t h; simp at h)).1 rfl).1

/-! ### Claim C4: normalizer field aliasing (sync_service.py:278-329) -/

/-- Shorthand turning a Lean string literal into the `List Char` model. -/
def litS (s : String) : Str := s.data

/-- Iterating a Python value the code has just defaulted with `or []`: list
values yield their elements (a truthy non-list would raise in Python and does
not occur on this path). -/
def asList : PyVal → List PyVal
  | .list l => l
  | _ => []

/-- Embedding of `_sensor_entry_from_remote` (sync_service.py:309): resolve
the sensor identifier through the `or`-chain
`sensorsId or sensorId or id`, drop the entry when it resolved to `None`,
otherwise build the webhook-shaped dict. -/
def sensor_entry_from_remote (sensor : PyVal) : Option PyVal :=
  let sensor_id :=
    pyOr (pyGet sensor (litS "sensorsId"))
      (pyOr (pyGet sensor (litS "sensorId")) (pyGet sensor (litS "id")))
  if sensor_id = PyVal.none then Option.none
  else
    let timestamp :=
      pyOr (pyGet sensor (litS "updateDate")) (pyGet sensor (litS "heartbeatDate"))
    some (PyVal.dict
      [ (litS "times", timestamp)
      , (litS "sensorsId", sensor_id)
      , (litS "sensorsTypeId", pyGet sensor (litS "sensorTypeId"))
      , (litS "sensorName",
          pyOr (pyGet sensor (litS "sensorName")) (pyGet sensor (litS "sensor_name")))
      , (litS "isLine", pyGet sensor (litS "isLine"))
      , (litS "isAlarm", pyGet sensor (litS "isAlarms"))
      , (litS "reVal",
          pyOr (pyGet sensor (litS "send_value")) (pyGet sensor (litS "value")))
      , (litS "value", pyGet sensor (litS "value"))
      , (litS "unit", pyGet sensor (litS "unit")) ])

/-- Embedding of `_payload_from_remote_device` (sync_service.py:278): convert
one remote device record into the canonical webhook-shaped payload, resolving
each field through its `or`-chain of candidate keys. -/
def payload_from_remote_device (device : PyVal) (default_user_id : Int)
    (default_flag : PyVal) : PyVal :=
  let sensors := asList (pyOr (pyGet device (litS "sensorsList")) (PyVal.list []))
  let sensor_entries := sensors.filterMap sensor_entry_from_remote
  let base_time0 :=
    pyOr (pyGet device (litS "updateDate")) (pyGet device (litS "createDate"))
  let base_time :=
    if ¬pyTruthy base_time0 ∧ sensor_entries ≠ [] then
      match sensor_entries with
      | e :: _ => pyGet e (litS "times")
      | [] => base_time0
    else base_time0
  PyVal.dict
    [ (litS "flag",
        pyOr (pyGet device (litS "flag")) (pyOr default_flag (PyVal.str (litS "sync"))))
    , (litS "deviceUserid",
        pyOr (pyGet device (litS "userId")) (PyVal.int default_user_id))
    , (litS "parentUserId",
        pyOr (pyGet device (litS "parentUserId")) (pyGet device (litS "parentUser")))
    , (litS "sensorsDates", PyVal.list sensor_entries)
    , (litS "time", base_time)
    , (litS "rawData", pyGet device (litS "deviceNo"))
    , (litS "deviceId",
        pyOr (pyGet device (litS "id")) (pyGet device (litS "deviceId")))
    , (litS "deviceName",
        pyOr (pyGet device (litS "deviceName")) (pyGet device (litS "device_name")))
    , (litS "deviceNo",
        pyOr (pyGet device (litS "deviceNo")) (pyGet device (litS "device_no")))
    , (litS "groupId",
        pyOr (pyGet device (litS "groupId")) (pyGet device (litS "group_id")))
    , (litS "lat", pyGet device (litS "lat"))
    , (litS "lng", pyGet device (litS "lng"))
    , (litS "productId",
        pyOr (pyGet device (litS "productId")) (pyGet device (litS "product_id")))
    , (litS "productType",
        pyOr (pyGet device (litS "productType")) (pyGet device (litS "product_type")))
    , (litS "protocolLabel",
        pyOr (pyGet device (litS "protocolLabel")) (pyGet device (litS "protocol_label"))) ]

/-- The claim's resolution rule, stated from the spec words: the value of the
first candidate that is non-null, and null if every candidate is null. Used
to compare the source behaviour against the claimed one. -/
def firstNonNullCandidate (candidates : List PyVal) : PyVal :=
  match candidates.find? (fun v => v ≠ PyVal.none) with
  | some v => v
  | Option.none => PyVal.none

/-- Resolution rule actually implemented by the `or`-chains: the first truthy
candidate, and the last candidate's value when none is truthy. -/
def firstTruthyCandidate (candidates : List PyVal) : PyVal :=
  match candidates.find? pyTruthy with
  | some v => v
  | Option.none => candidates.getLastD PyVal.none

/-- A Python `or`-chain over a nonempty candidate list (`a or b or c`). -/
def orChain : List PyVal → PyVal
  | [] => PyVal.none
  | [x] => x
  | x :: y :: xs => pyOr x (orChain (y :: xs))

theorem orChain_eq_firstTruthy : ∀ l : List PyVal,
    orChain l = firstTruthyCandidate l
  | [] => rfl
  | [x] => by
    by_cases h : pyTruthy x = true <;>
      simp [orChain, firstTruthyCandidate, List.find?, h]
  | x :: y :: xs => by
    have ih := orChain_eq_firstTruthy (y :: xs)
    by_cases h : pyTruthy x = true
    · simp [orChain, pyOr, firstTruthyCandidate, List.find?, h]
    · have h' : pyTruthy x = false := by simpa using h
      simp only [orChain, pyOr, h', if_false, Bool.false_eq_true, ih]
      simp [firstTruthyCandidate, List.find?, h', List.getLastD]

/-- C4 counterexample: a remote record whose `deviceName` is the non-null
empty string and whose `device_name` is `"x"`. The claim says the normalized
`deviceName` is the first non-null candidate (the empty string); the code
skips the falsy empty string and returns `"x"`. -/
theorem normalizer_not_first_non_null :
    pyGet
        (payload_from_remote_device
          (PyVal.dict
            [ (litS "id", PyVal.int 5)
            , (litS "deviceName", PyVal.str [])
            , (litS "device_name", PyVal.str (litS "x")) ])
          1 PyVal.none)
        (litS "deviceName") = PyVal.str (litS "x") ∧
      firstNonNullCandidate
          [ pyGet
              (PyVal.dict
                [ (litS "id", PyVal.int 5)
                , (litS "deviceName", PyVal.str [])
                , (litS "device_name", PyVal.str (litS "x")) ])
              (litS "deviceName")
          , pyGet
              (PyVal.dict
                [ (litS "id", PyVal.int 5)
                , (litS "deviceName", PyVal.str [])
                , (litS "device_name", PyVal.str (litS "x")) ])
              (litS "device_name") ] = PyVal.str [] ∧
      PyVal.str (litS "x") ≠ PyVal.str [] := by
  refine ⟨by decide, by decide, by decide⟩

/-- C4 amended. Normalizer field aliasing as implemented: each canonical
field resolves to the first truthy candidate of its priority-ordered list
(null, False, 0, the empty string and empty containers are skipped); when no
candidate is truthy the last candidate's value (possibly null or falsy) is
kept; a sensor entry is dropped exactly when its identifier chain resolves to
null. Resolution is independent for each record. -/
theorem normalizer_first_truthy_candidate_wins (d : PyVal) (u : Int)
    (f : PyVal) (s : PyVal) :
    (pyGet (payload_from_remote_device d u f) (litS "flag") =
      firstTruthyCandidate [pyGet d (litS "flag"), f, PyVal.str (litS "sync")]) ∧
    (pyGet (payload_from_remote_device d u f) (litS "deviceUserid") =
      firstTruthyCandidate [pyGet d (litS "userId"), PyVal.int u]) ∧
    (pyGet (payload_from_remote_device d u f) (litS "parentUserId") =
      firstTruthyCandidate [pyGet d (litS "parentUserId"), pyGet d (litS "parentUser")]) ∧
    (pyGet (payload_from_remote_device d u f) (litS "rawData") =
      firstTruthyCandidate [pyGet d (litS "deviceNo")]) ∧
    (pyGet (payload_from_remote_device d u f) (litS "deviceId") =
      firstTruthyCandidate [pyGet d (litS "id"), pyGet d (litS "deviceId")]) ∧
    (pyGet (payload_from_remote_device d u f) (litS "deviceName") =
      firstTruthyCandidate [pyGet d (litS "deviceName"), pyGet d (litS "device_name")]) ∧
    (pyGet (payload_from_remote_device d u f) (litS "deviceNo") =
      firstTruthyCandidate [pyGet d (litS "deviceNo"), pyGet d (litS "device_no")]) ∧
    (pyGet (payload_from_remote_device d u f) (litS "groupId") =
      firstTruthyCandidate [pyGet d (litS "groupId"), pyGet d (litS "group_id")]) ∧
    (pyGet (payload_from_remote_device d u f) (litS "lat") =
      firstTruthyCandidate [pyGet d (litS "lat")]) ∧
    (pyGet (payload_from_remote_device d u f) (litS "lng") =
      firstTruthyCandidate [pyGet d (litS "lng")]) ∧
    (pyGet (payload_from_remote_device d u f) (litS "productId") =
      firstTruthyCandidate [pyGet d (litS "productId"), pyGet d (litS "product_id")]) ∧
    (pyGet (payload_from_remote_device d u f) (litS "productType") =
      firstTruthyCandidate [pyGet d (litS "productType"), pyGet d (litS "product_type")]) ∧
    (pyGet (payload_from_remote_device d u f) (litS "protocolLabel") =
      firstTruthyCandidate [pyGet d (litS "protocolLabel"), pyGet d (litS "protocol_label")]) ∧
    (sensor_entry_from_remote s = Option.none ↔
      firstTruthyCandidate
        [pyGet s (litS "sensorsId"), pyGet s (litS "sensorId"), pyGet s (litS "id")] =
        PyVal.none) ∧
    (∀ e, sensor_entry_from_remote s = some e →
      (pyGet e (litS "sensorsId") =
        firstTruthyCandidate
          [pyGet s (litS "sensorsId"), pyGet s (litS "sensorId"), pyGet s (litS "id")]) ∧
      (pyGet e (litS "times") =
        firstTruthyCandidate
          [pyGet s (litS "updateDate"), pyGet s (litS "heartbeatDate")]) ∧
      (pyGet e (litS "sensorsTypeId") =
        firstTruthyCandidate [pyGet s (litS "sensorTypeId")]) ∧
      (pyGet e (litS "sensorName") =
        firstTruthyCandidate
          [pyGet s (litS "sensorName"), pyGet s (litS "sensor_name")]) ∧
      (pyGet e (litS "isLine") = firstTruthyCandidate [pyGet s (litS "isLine")]) ∧
      (pyGet e (litS "isAlarm") = firstTruthyCandidate [pyGet s (litS "isAlarms")]) ∧
      (pyGet e (litS "reVal") =
        firstTruthyCandidate
          [pyGet s (litS "send_value"), pyGet s (litS "value")]) ∧
      (pyGet e (litS "value") = firstTruthyCandidate [pyGet s (litS "value")]) ∧
      (pyGet e (litS "unit") = firstTruthyCandidate [pyGet s (litS "unit")])) := by
  refine ⟨?_, ?_, ?_, ?_, ?_, ?_, ?_, ?_, ?_, ?_, ?_, ?_, ?_, ?_, ?_⟩
  case _ =>
    rw [← orChain_eq_firstTruthy]; rfl
  case _ =>
    rw [← orChain_eq_firstTruthy]; rfl
  case _ =>
    rw [← orChain_eq_firstTruthy]; rfl
  case _ =>
    rw [← orChain_eq_firstTruthy]; rfl
  case _ =>
    rw [← orChain_eq_firstTruthy]; rfl
  case _ =>
    rw [← orChain_eq_firstTruthy]; rfl
  case _ =>
    rw [← orChain_eq_firstTruthy]; rfl
  case _ =>
    rw [← orChain_eq_firstTruthy]; rfl
  case _ =>
    rw [← orChain_eq_firstTruthy]; rfl
  case _ =>
    rw [← orChain_eq_firstTruthy]; rfl
  case _ =>
    rw [← orChain_eq_firstTruthy]; rfl
  case _ =>
    rw [← orChain_eq_firstTruthy]; rfl
  case _ =>
    rw [← orChain_eq_firstTruthy]; rfl
  case _ =>
    rw [← orChain_eq_firstTruthy]
    unfold sensor_entry_from_remote
    simp only [orChain]
    by_cases h : pyOr (pyGet s (litS "sensorsId"))
        (pyOr (pyGet s (litS "sensorId")) (pyGet s (litS "id"))) = PyVal.none
    · simp [h]
    · simp [h]
  case _ =>
    intro e he
    unfold sensor_entry_from_remote at he
    by_cases h : pyOr (pyGet s (litS "sensorsId"))
        (pyOr (pyGet s (litS "sensorId")) (pyGet s (litS "id"))) = PyVal.none
    · simp [h] at he
    · simp only [h, if_neg, if_false, Option.some.injEq] at he
      subst he
      refine ⟨?_, ?_, ?_, ?_, ?_, ?_, ?_, ?_, ?_⟩ <;>
        (rw [← orChain_eq_firstTruthy]; rfl)

def sampleRemoteSensor : PyVal :=
  PyVal.dict
    [ (litS "sensorsId", PyVal.int 9)
    , (litS "value", PyVal.str (litS "7")) ]

def sampleSensorEntry : PyVal :=
  (sensor_entry_from_remote sampleRemoteSensor).getD PyVal.none

/-- Witness for the amended C4 at a concrete record and sensor entry. -/
theorem normalizer_first_truthy_candidate_wins_witness :
    (pyGet
        (payload_from_remote_device (PyVal.dict [(litS "id", PyVal.int 5)]) 1
          PyVal.none)
        (litS "flag") =
      firstTruthyCandidate
        [pyGet (PyVal.dict [(litS "id", PyVal.int 5)]) (litS "flag"), PyVal.none,
          PyVal.str (litS "sync")]) ∧
    (pyGet sampleSensorEntry (litS "sensorsId") =
      firstTruthyCandidate
        [pyGet sampleRemoteSensor (litS "sensorsId"),
          pyGet sampleRemoteSensor (litS "sensorId"),
          pyGet sampleRemoteSensor (litS "id")]) :=
  ⟨(normalizer_first_truthy_candidate_wins (PyVal.dict [(litS "id", PyVal.int 5)])
      1 PyVal.none PyVal.none).1,
    ((normalizer_first_truthy_candidate_wins PyVal.none 1 PyVal.none
        sampleRemoteSensor).2.2.2.2.2.2.2.2.2.2.2.2.2.2 sampleSensorEntry
      (by decide)).1⟩

/-! ### String and number primitives shared by the log store embedding

`Str` models Python `str`; the helpers below model `str.strip`, `str.upper`,
decimal rendering of `int` values, and `int(...)` parsing of sign-and-digits
strings. -/

/-- Python whitespace for `str.strip` (ASCII subset: space, tab, newline,
carriage return, vertical tab, form feed). -/
def isPySpace (c : Char) : Bool :=
  c.toNat = 32 ∨ c.toNat = 9 ∨ c.toNat = 10 ∨ c.toNat = 13 ∨ c.toNat = 11 ∨
    c.toNat = 12

/-- Python `str.strip()`: drop whitespace from both ends. -/
def pyStrip (s : Str) : Str :=
  ((s.dropWhile isPySpace).reverse.dropWhile isPySpace).reverse

/-- Python `str.upper()` (ASCII). -/
def pyUpper (s : Str) : Str := s.map Char.toUpper

/-- The decimal digit character for `d ≤ 9`. -/
def digitChar (d : Nat) : Char := Char.ofNat (48 + d)

/-- The value of a decimal digit character, if it is one. -/
def dv (c : Char) : Option Nat :=
  if 48 ≤ c.toNat ∧ c.toNat ≤ 57 then some (c.toNat - 48) else Option.none

theorem toNat_ofNat_of_lt {n : Nat} (h : n < 55296) :
    (Char.ofNat n).toNat = n := by
  simp [Char.ofNat, Char.toNat, Nat.isValidChar, h, Char.ofNatAux,
    UInt32.toNat, UInt32.ofNat]

theorem digitChar_toNat {d : Nat} (h : d ≤ 9) :
    (digitChar d).toNat = 48 + d := by
  unfold digitChar
  exact toNat_ofNat_of_lt (by omega)

theorem dv_digitChar {d : Nat} (h : d ≤ 9) : dv (digitChar d) = some d := by
  simp [dv, digitChar_toNat h]
  omega

/-- Decimal digits of a natural number (`str(n)` for `n ≥ 0`). -/
def natDigits (n : Nat) : Str :=
  if _h : n < 10 then [digitChar n]
  else natDigits (n / 10) ++ [digitChar (n % 10)]
  termination_by n
  decreasing_by exact Nat.div_lt_self (by omega) (by omega)

/-- Python `str(i)` for an `int`. -/
def intStr (i : Int) : Str :=
  if i < 0 then '-' :: natDigits i.natAbs else natDigits i.toNat

/-- Accumulating decimal parse; fails on any non-digit. -/
def parseNatAux : Nat → Str → Option Nat
  | acc, [] => some acc
  | acc, c :: cs =>
    match dv c with
    | some d => parseNatAux (acc * 10 + d) cs
    | Option.none => Option.none

/-- Parse a nonempty all-digit string. -/
def parseNatDigits (s : Str) : Option Nat :=
  if s.isEmpty then Option.none else parseNatAux 0 s

/-- Model of Python `int(s)` on a stripped string: an optional sign followed
by at least one digit. -/
def parseIntStr (s : Str) : Option Int :=
  match s with
  | [] => Option.none
  | c :: rest =>
    if c = '-' then (parseNatDigits rest).map (fun n : Nat => -(n : Int))
    else if c = '+' then (parseNatDigits rest).map (fun n : Nat => (n : Int))
    else (parseNatDigits (c :: rest)).map (fun n : Nat => (n : Int))

theorem parseNatAux_append (acc : Nat) (xs ys : Str) :
    parseNatAux acc (xs ++ ys) =
      match parseNatAux acc xs with
      | some a => parseNatAux a ys
      | Option.none => Option.none := by
  induction xs generalizing acc with
  | nil => simp [parseNatAux]
  | cons c cs ih =>
    simp only [List.cons_append, parseNatAux]
    cases dv c with
    | none => simp
    | some d => simpa using ih (acc * 10 + d)

theorem parseNatAux_natDigits (n : Nat) : ∀ acc : Nat,
    parseNatAux acc (natDigits n) =
      some (acc * 10 ^ (natDigits n).length + n) := by
  induction n using Nat.strong_induction_on with
  | _ n ih =>
    intro acc
    by_cases h : n < 10
    · rw [natDigits]
      simp [h, parseNatAux, dv_digitChar (by omega : n ≤ 9)]
    · rw [natDigits]
      simp only [h, dite_false]
      rw [parseNatAux_append]
      have hd : n / 10 < n := Nat.div_lt_self (by omega) (by omega)
      rw [ih (n / 10) hd acc]
      have hm : n % 10 ≤ 9 := by omega
      simp only [parseNatAux, dv_digitChar hm, List.length_append,
        List.length_singleton]
      have : (acc * 10 ^ (natDigits (n / 10)).length + n / 10) * 10 + n % 10 =
          acc * 10 ^ ((natDigits (n / 10)).length + 1) + n := by
        have := Nat.div_add_mod n 10
        ring_nf
        omega
      rw [this]

theorem natDigits_ne_nil (n : Nat) : natDigits n ≠ [] := by
  rw [natDigits]
  split <;> simp

theorem parseNatDigits_natDigits (n : Nat) :
    parseNatDigits (natDigits n) = some n := by
  unfold parseNatDigits
  rw [if_neg (by simpa using natDigits_ne_nil n)]
  simpa using parseNatAux_natDigits n 0

theorem natDigits_head (n : Nat) :
    ∃ d, d ≤ 9 ∧ (natDigits n).head? = some (digitChar d) := by
  rw [natDigits]
  split
  · exact ⟨n, by omega, rfl⟩
  · obtain ⟨d, hd, hh⟩ := natDigits_head (n / 10)
    refine ⟨d, hd, ?_⟩
    cases hnd : natDigits (n / 10) with
    | nil => exact absurd hnd (natDigits_ne_nil _)
    | cons c cs =>
      rw [hnd] at hh
      simpa using hh
  termination_by n
  decreasing_by exact Nat.div_lt_self (by omega) (by omega)

theorem digitChar_ne_minus {d : Nat} (h : d ≤ 9) : digitChar d ≠ '-' := by
  intro he
  have := digitChar_toNat h
  rw [he] at this
  simp at this
  omega

theorem digitChar_ne_plus {d : Nat} (h : d ≤ 9) : digitChar d ≠ '+' := by
  intro he
  have := digitChar_toNat h
  rw [he] at this
  simp at this
  omega

/-- Rendering an `int` and parsing it back with `int(...)` is the identity. -/
theorem parseIntStr_intStr (i : Int) : parseIntStr (intStr i) = some i := by
  have hminus : ∀ rest : Str, parseIntStr ('-' :: rest) =
      (parseNatDigits rest).map (fun n : Nat => -(n : Int)) := by
    intro rest
    simp [parseIntStr]
  have hdigit : ∀ (c : Char) (rest : Str), c ≠ '-' → c ≠ '+' →
      parseIntStr (c :: rest) =
        (parseNatDigits (c :: rest)).map (fun n : Nat => (n : Int)) := by
    intro c rest h1 h2
    simp [parseIntStr, h1, h2]
  unfold intStr
  by_cases hi : i < 0
  · simp only [hi, if_true]
    rw [hminus, parseNatDigits_natDigits]
    simp only [Option.map_some', Option.some.injEq]
    omega
  · simp only [hi, if_false]
    obtain ⟨d, hd, hh⟩ := natDigits_head i.toNat
    cases hnd : natDigits i.toNat with
    | nil => exact absurd hnd (natDigits_ne_nil _)
    | cons c cs =>
      rw [hnd] at hh
      simp only [List.head?_cons, Option.some.injEq] at hh
      subst hh
      rw [hdigit _ _ (digitChar_ne_minus hd) (digitChar_ne_plus hd),
        ← hnd, parseNatDigits_natDigits]
      simp only [Option.map_some', Option.some.injEq]
      omega

/-! ### Naive datetimes

Python `datetime` values (microseconds play no role on these paths: the log
writer formats whole seconds and `replace(microsecond=0)` is applied before
every render). Comparison is field-lexicographic, realised through an
injective numeric key valid for the bounded fields of real datetimes. Local
time conversion (`astimezone(tz=None)`) is modelled by an explicit offset in
seconds, threaded as a parameter. -/

structure PDateTime where
  year : Nat
  month : Nat
  day : Nat
  hour : Nat
  minute : Nat
  second : Nat
  deriving Repr, DecidableEq

def isLeapYear (y : Nat) : Bool :=
  (y % 4 = 0 ∧ y % 100 ≠ 0) ∨ y % 400 = 0

def daysInMonth (y m : Nat) : Nat :=
  if m = 2 then (if isLeapYear y then 29 else 28)
  else if m = 4 ∨ m = 6 ∨ m = 9 ∨ m = 11 then 30
  else 31

/-- A real calendar datetime with a four-digit year. -/
def validDT (t : PDateTime) : Prop :=
  1000 ≤ t.year ∧ t.year ≤ 9999 ∧ 1 ≤ t.month ∧ t.month ≤ 12 ∧
    1 ≤ t.day ∧ t.day ≤ daysInMonth t.year t.month ∧ t.hour ≤ 23 ∧
    t.minute ≤ 59 ∧ t.second ≤ 59

instance (t : PDateTime) : Decidable (validDT t) := by
  unfold validDT
  infer_instance

/-- Injective key realising the lexicographic datetime order on bounded
fields. -/
def dtKey (t : PDateTime) : Nat :=
  ((((t.year * 13 + t.month) * 32 + t.day) * 24 + t.hour) * 60 + t.minute) *
      60 + t.second

/-- Python `datetime <` on naive datetimes. -/
def dtLt (a b : PDateTime) : Bool := dtKey a < dtKey b

/-- Days since 0000-03-01 of a civil date (standard civil-calendar
conversion). -/
def daysFromCivil (y m d : Nat) : Nat :=
  let yAdj := if m ≤ 2 then y - 1 else y
  let era := yAdj / 400
  let yoe := yAdj % 400
  let mp := (m + 9) % 12
  let doy := (153 * mp + 2) / 5 + d - 1
  let doe := yoe * 365 + yoe / 4 - yoe / 100 + doy
  era * 146097 + doe

/-- Civil date of a day count (inverse of `daysFromCivil`). -/
def civilFromDays (z : Int) : Nat × Nat × Nat :=
  let era := z.fdiv 146097
  let doe := (z - era * 146097).toNat
  let yoe := (doe - doe / 1460 + doe / 36524 - doe / 146096) / 365
  let doy := doe - (365 * yoe + yoe / 4 - yoe / 100)
  let mp := (5 * doy + 2) / 153
  let d := doy - (153 * mp + 2) / 5 + 1
  let m := if mp < 10 then mp + 3 else mp - 9
  let yAdj : Int := era * 400 + yoe
  let y : Int := if m ≤ 2 then yAdj + 1 else yAdj
  (y.toNat, m, d)

def toEpochSecs (t : PDateTime) : Int :=
  (daysFromCivil t.year t.month t.day : Int) * 86400 + t.hour * 3600 +
    t.minute * 60 + t.second

def fromEpochSecs (s : Int) : PDateTime :=
  let days := s.fdiv 86400
  let rem := (s - days * 86400).toNat
  let c := civilFromDays days
  { year := c.1, month := c.2.1, day := c.2.2, hour := rem / 3600,
    minute := rem / 60 % 60, second := rem % 60 }

/-- Shift a datetime by a whole number of seconds (timezone conversion). -/
def addSeconds (off : Int) (t : PDateTime) : PDateTime :=
  fromEpochSecs (toEpochSecs t + off)

/-- Two zero-padded decimal digits (`strftime` field for a value ≤ 99). -/
def pad2 (n : Nat) : Str := [digitChar (n / 10 % 10), digitChar (n % 10)]

/-- Four zero-padded decimal digits (`strftime` `%Y` for 1000–9999). -/
def pad4 (n : Nat) : Str :=
  [digitChar (n / 1000 % 10), digitChar (n / 100 % 10), digitChar (n / 10 % 10),
    digitChar (n % 10)]

/-- The log writer's `utcnow().strftime("%Y-%m-%dT%H:%M:%SZ")`. -/
def format_log_timestamp (t : PDateTime) : Str :=
  pad4 t.year ++ '-' :: pad2 t.month ++ '-' :: pad2 t.day ++
    'T' :: pad2 t.hour ++ ':' :: pad2 t.minute ++ ':' :: pad2 t.second ++ ['Z']

/-- Python `datetime.isoformat()` of a naive whole-second datetime. -/
def isoformatDT (t : PDateTime) : Str :=
  pad4 t.year ++ '-' :: pad2 t.month ++ '-' :: pad2 t.day ++
    'T' :: pad2 t.hour ++ ':' :: pad2 t.minute ++ ':' :: pad2 t.second

/-- Embedding of `to_storage_timestamp` (utils.py:33) on a present datetime:
`replace(microsecond=0).strftime("%Y-%m-%d %H:%M:%S")`. -/
def to_storage_timestamp (t : PDateTime) : Str :=
  pad4 t.year ++ '-' :: pad2 t.month ++ '-' :: pad2 t.day ++
    ' ' :: pad2 t.hour ++ ':' :: pad2 t.minute ++ ':' :: pad2 t.second

/-- Python `value.replace("Z", "+00:00")`: every `Z` becomes `+00:00`. -/
def replaceZ : Str → Str
  | [] => []
  | c :: cs =>
    if c = 'Z' then '+' :: '0' :: '0' :: ':' :: '0' :: '0' :: replaceZ cs
    else c :: replaceZ cs

/-- Read one decimal digit. -/
def readDigit : Str → Option (Nat × Str)
  | c :: rest =>
    match dv c with
    | some d => some (d, rest)
    | Option.none => Option.none
  | [] => Option.none

/-- Read one expected character. -/
def readFixed (ch : Char) : Str → Option Str
  | c :: rest => if c = ch then some rest else Option.none
  | [] => Option.none

def read2 (s : Str) : Option (Nat × Str) := do
  let (a, s) ← readDigit s
  let (b, s) ← readDigit s
  pure (a * 10 + b, s)

def read4 (s : Str) : Option (Nat × Str) := do
  let (a, s) ← readDigit s
  let (b, s) ← readDigit s
  let (c, s) ← readDigit s
  let (d, s) ← readDigit s
  pure (((a * 10 + b) * 10 + c) * 10 + d, s)

/-- Model of `datetime.fromisoformat` restricted to the shapes this system
produces and consumes: `YYYY-MM-DD`, optionally followed by a `T` or space
separator and `HH:MM:SS`, optionally followed by a `±HH:MM` offset. An
aware result is converted to local time by `tzOff` (the
`astimezone(tz=None).replace(tzinfo=None)` of `_parse_timestamp`). -/
def fromisoformat (tzOff : Int) (v : Str) : Option PDateTime := do
  let (y, s) ← read4 v
  let s ← readFixed '-' s
  let (mo, s) ← read2 s
  let s ← readFixed '-' s
  let (da, s) ← read2 s
  if ¬(1 ≤ mo ∧ mo ≤ 12 ∧ 1 ≤ da ∧ da ≤ daysInMonth y mo) then Option.none
  else
    match s with
    | [] => some ⟨y, mo, da, 0, 0, 0⟩
    | sep :: s =>
      if sep = 'T' ∨ sep = ' ' then do
        let (h, s) ← read2 s
        let s ← readFixed ':' s
        let (mi, s) ← read2 s
        let s ← readFixed ':' s
        let (se, s) ← read2 s
        if ¬(h ≤ 23 ∧ mi ≤ 59 ∧ se ≤ 59) then Option.none
        else
          let naive : PDateTime := ⟨y, mo, da, h, mi, se⟩
          match s with
          | [] => some naive
          | sign :: s =>
            if sign = '+' ∨ sign = '-' then do
              let (oh, s) ← read2 s
              let s ← readFixed ':' s
              let (om, s) ← read2 s
              match s with
              | [] =>
                if oh ≤ 23 ∧ om ≤ 59 then
                  let off : Int := oh * 3600 + om * 60
                  let off := if sign = '-' then -off else off
                  some (addSeconds (tzOff - off) naive)
                else Option.none
              | _ => Option.none
            else Option.none
      else Option.none

/-- Embedding of `_parse_timestamp` (log_utils.py:115): strip, reject the
empty string, rewrite a trailing-`Z` value with `+00:00`, and parse; an
aware value is converted to local naive time. -/
def parse_timestamp (tzOff : Int) (value : Str) : Option PDateTime :=
  let v := pyStrip value
  if v.isEmpty then Option.none
  else
    let normalized := if v.getLast? = some 'Z' then replaceZ v else v
    fromisoformat tzOff normalized

/-! ### JSON serialization (Python json.dumps / json.loads)

`json.dumps(..., separators=(",", ":"), ensure_ascii=True)` on the modelled
value domain (null, bool, int, str, list, dict), and a parser for the same
compact sublanguage as `json.loads` reads it back (no inter-token whitespace,
integer numbers, exactly what the writer emits). Strings use the standard JSON
escapes including `\uXXXX` and surrogate pairs for astral code points. -/

def openBrace : Char := Char.ofNat 123

def closeBrace : Char := Char.ofNat 125

/-- Lowercase hexadecimal digit character. -/
def hexDigitChar (d : Nat) : Char :=
  Char.ofNat (if d < 10 then 48 + d else 87 + d)

/-- Hexadecimal digit value (both cases), as `json.loads` reads `\uXXXX`. -/
def hdv (c : Char) : Option Nat :=
  if 48 ≤ c.toNat ∧ c.toNat ≤ 57 then some (c.toNat - 48)
  else if 97 ≤ c.toNat ∧ c.toNat ≤ 102 then some (c.toNat - 87)
  else if 65 ≤ c.toNat ∧ c.toNat ≤ 70 then some (c.toNat - 55)
  else Option.none

/-- Four lowercase hex digits of `n < 0x10000`. -/
def hex4 (n : Nat) : Str :=
  [hexDigitChar (n / 4096 % 16), hexDigitChar (n / 256 % 16),
    hexDigitChar (n / 16 % 16), hexDigitChar (n % 16)]

/-- The `\uXXXX` escape (with a surrogate pair above the BMP). -/
def uEscape (n : Nat) : Str :=
  if n < 65536 then '\\' :: 'u' :: hex4 n
  else
    '\\' :: 'u' :: hex4 (55296 + (n - 65536) / 1024) ++
      '\\' :: 'u' :: hex4 (56320 + (n - 65536) % 1024)

/-- JSON escape of one character under `ensure_ascii=True`: the two-character
shortcuts, printable ASCII verbatim, `\uXXXX` for everything else. -/
def escChar (c : Char) : Str :=
  if c = '"' then ['\\', '"']
  else if c = '\\' then ['\\', '\\']
  else if c.toNat = 10 then ['\\', 'n']
  else if c.toNat = 13 then ['\\', 'r']
  else if c.toNat = 9 then ['\\', 't']
  else if c.toNat = 8 then ['\\', 'b']
  else if c.toNat = 12 then ['\\', 'f']
  else if 32 ≤ c.toNat ∧ c.toNat ≤ 126 then [c]
  else uEscape c.toNat

def escString : Str → Str
  | [] => []
  | c :: cs => escChar c ++ escString cs

mutual

/-- `json.dumps(v, separators=(",", ":"), ensure_ascii=True)`. -/
def encodeJVal : PyVal → Str
  | .none => litS "null"
  | .bool b => if b then litS "true" else litS "false"
  | .int n => intStr n
  | .str s => '"' :: escString s ++ ['"']
  | .list l => '[' :: encodeJItems l ++ [']']
  | .dict d => openBrace :: encodeJEntries d ++ [closeBrace]

def encodeJItems : List PyVal → Str
  | [] => []
  | [x] => encodeJVal x
  | x :: y :: xs => encodeJVal x ++ ',' :: encodeJItems (y :: xs)

def encodeJEntries : List (Str × PyVal) → Str
  | [] => []
  | [(k, v)] => '"' :: escString k ++ '"' :: ':' :: encodeJVal v
  | (k, v) :: e :: es =>
    '"' :: escString k ++ '"' :: ':' :: encodeJVal v ++
      ',' :: encodeJEntries (e :: es)

end

/-- Read exactly four hex digits. -/
def readHex4 : Str → Option (Nat × Str)
  | a :: b :: c :: d :: rest => do
    let x ← hdv a
    let y ← hdv b
    let z ← hdv c
    let w ← hdv d
    pure (((x * 16 + y) * 16 + z) * 16 + w, rest)
  | _ => Option.none

/-- The `\uXXXX` decoding of `json.loads`, after the `\u` introducer: a
lone scalar escape, or a surrogate pair recombined into one code point; lone
surrogates are rejected (unrepresentable in the value domain). -/
def readUEscape (s : Str) : Option (Char × Str) := do
  let (n1, r1) ← readHex4 s
  if 55296 ≤ n1 ∧ n1 ≤ 56319 then
    match r1 with
    | '\\' :: 'u' :: r2 => do
      let (n2, r3) ← readHex4 r2
      if 56320 ≤ n2 ∧ n2 ≤ 57343 then
        pure (Char.ofNat (65536 + (n1 - 55296) * 1024 + (n2 - 56320)), r3)
      else Option.none
    | _ => Option.none
  else if 56320 ≤ n1 ∧ n1 ≤ 57343 then Option.none
  else pure (Char.ofNat n1, r1)

/-- String-body parser of `json.loads`, after the opening quote: the decoded
content and the text following the closing quote. Surrogate pairs are
recombined; a lone surrogate is rejected (unrepresentable in the value
domain). -/
def jpStr : Nat → Str → Option (Str × Str)
  | 0, _ => Option.none
  | fuel + 1, s =>
    match s with
    | [] => Option.none
    | c :: rest =>
      if c = '"' then some ([], rest)
      else if c = '\\' then
        match rest with
        | [] => Option.none
        | e :: rest2 =>
          if e = 'u' then do
            let (ch, r1) ← readUEscape rest2
            let (tail, rest3) ← jpStr fuel r1
            pure (ch :: tail, rest3)
          else do
            let dec ←
              if e = '"' then some '"'
              else if e = '\\' then some '\\'
              else if e = '/' then some '/'
              else if e = 'n' then some (Char.ofNat 10)
              else if e = 'r' then some (Char.ofNat 13)
              else if e = 't' then some (Char.ofNat 9)
              else if e = 'b' then some (Char.ofNat 8)
              else if e = 'f' then some (Char.ofNat 12)
              else Option.none
            let (tail, rest3) ← jpStr fuel rest2
            pure (dec :: tail, rest3)
      else do
        let (tail, rest2) ← jpStr fuel rest
        pure (c :: tail, rest2)

/-- A nonempty digit run and the remaining text (JSON integer body). -/
def jpNat (s : Str) : Option (Nat × Str) :=
  match s with
  | c :: _ =>
    match dv c with
    | some _ =>
      let digits := s.takeWhile (fun ch => (dv ch).isSome)
      let rest := s.dropWhile (fun ch => (dv ch).isSome)
      (parseNatAux 0 digits).map (fun n => (n, rest))
    | Option.none => Option.none
  | [] => Option.none

mutual

/-- Value parser of the compact JSON sublanguage (fuelled; one unit of fuel
is spent per nesting step). -/
def jpVal : Nat → Str → Option (PyVal × Str)
  | 0, _ => Option.none
  | fuel + 1, s =>
    match s with
    | [] => Option.none
    | c :: rest =>
      if c = 'n' then
        match rest with
        | 'u' :: 'l' :: 'l' :: r => some (PyVal.none, r)
        | _ => Option.none
      else if c = 't' then
        match rest with
        | 'r' :: 'u' :: 'e' :: r => some (PyVal.bool true, r)
        | _ => Option.none
      else if c = 'f' then
        match rest with
        | 'a' :: 'l' :: 's' :: 'e' :: r => some (PyVal.bool false, r)
        | _ => Option.none
      else if c = '"' then do
        let (cs, rest2) ← jpStr (fuel + 1) rest
        pure (PyVal.str cs, rest2)
      else if c = '[' then
        match rest with
        | c2 :: rest2 =>
          if c2 = ']' then some (PyVal.list [], rest2)
          else do
            let (l, rest3) ← jpItems fuel rest
            pure (PyVal.list l, rest3)
        | [] => Option.none
      else if c = openBrace then
        match rest with
        | c2 :: rest2 =>
          if c2 = closeBrace then some (PyVal.dict [], rest2)
          else do
            let (d, rest3) ← jpEntries fuel rest
            pure (PyVal.dict d, rest3)
        | [] => Option.none
      else if c = '-' then do
        let (n, rest2) ← jpNat rest
        pure (PyVal.int (-(n : Int)), rest2)
      else do
        let (n, rest2) ← jpNat (c :: rest)
        pure (PyVal.int (n : Int), rest2)

/-- Items of a nonempty array, then the closing bracket. -/
def jpItems : Nat → Str → Option (List PyVal × Str)
  | 0, _ => Option.none
  | fuel + 1, s => do
    let (v, rest) ← jpVal (fuel + 1) s
    match rest with
    | ']' :: rest2 => some ([v], rest2)
    | ',' :: rest2 => do
      let (l, rest3) ← jpItems fuel rest2
      pure (v :: l, rest3)
    | _ => Option.none

/-- Entries of a nonempty object, then the closing brace. -/
def jpEntries : Nat → Str → Option (List (Str × PyVal) × Str)
  | 0, _ => Option.none
  | fuel + 1, s =>
    match s with
    | '"' :: rest => do
      let (k, r1) ← jpStr (fuel + 1) rest
      match r1 with
      | ':' :: r2 => do
        let (v, r3) ← jpVal (fuel + 1) r2
        match r3 with
        | c :: r4 =>
          if c = closeBrace then some ([(k, v)], r4)
          else if c = ',' then do
            let (d, r5) ← jpEntries fuel r4
            pure ((k, v) :: d, r5)
          else Option.none
        | [] => Option.none
      | _ => Option.none
    | _ => Option.none

end

/-- Model of `json.loads` on the compact documents this system writes: parse
one value and require the input to be fully consumed. -/
def jsonLoads (s : Str) : Option PyVal :=
  match jpVal (s.length + 1) s with
  | some (v, []) => some v
  | _ => Option.none

/-! ### Round-trip of the JSON serialization -/

theorem hexDigitChar_toNat {d : Nat} (h : d ≤ 15) :
    (hexDigitChar d).toNat = if d < 10 then 48 + d else 87 + d := by
  unfold hexDigitChar
  split <;> exact toNat_ofNat_of_lt (by omega)

theorem hdv_hexDigitChar {d : Nat} (h : d ≤ 15) :
    hdv (hexDigitChar d) = some d := by
  have := hexDigitChar_toNat h
  unfold hdv
  by_cases hd : d < 10
  · rw [this]
    simp [hd]
    omega
  · rw [this]
    simp only [hd, if_false]
    rw [if_neg (by omega), if_pos (by omega)]
    congr 1
    omega

theorem readHex4_hex4 {n : Nat} (h : n < 65536) (rest : Str) :
    readHex4 (hex4 n ++ rest) = some (n, rest) := by
  unfold hex4
  simp [readHex4, hdv_hexDigitChar (by omega : n / 4096 % 16 ≤ 15),
    hdv_hexDigitChar (by omega : n / 256 % 16 ≤ 15),
    hdv_hexDigitChar (by omega : n / 16 % 16 ≤ 15),
    hdv_hexDigitChar (by omega : n % 16 ≤ 15)]
  omega

theorem char_valid_scalar (c : Char) :
    c.toNat < 55296 ∨ (57344 ≤ c.toNat ∧ c.toNat < 1114112) := by
  have h := c.valid
  unfold UInt32.isValidChar Nat.isValidChar at h
  exact h

theorem readUEscape_pair (hi lo : Nat) (X : Str)
    (hhi : hi < 65536) (hlo : lo < 65536)
    (h1 : 55296 ≤ hi) (h2 : hi ≤ 56319) (h3 : 56320 ≤ lo) (h4 : lo ≤ 57343) :
    readUEscape (hex4 hi ++ ('\\' :: 'u' :: (hex4 lo ++ X))) =
      some (Char.ofNat (65536 + (hi - 55296) * 1024 + (lo - 56320)), X) := by
  simp [readUEscape, readHex4_hex4 hhi, readHex4_hex4 hlo, h1, h2, h3, h4]

theorem readUEscape_uEscape (c : Char) :
    ∃ body, uEscape c.toNat = '\\' :: 'u' :: body ∧
      ∀ X, readUEscape (body ++ X) = some (c, X) := by
  have hval := char_valid_scalar c
  unfold uEscape
  by_cases h9 : c.toNat < 65536
  · refine ⟨hex4 c.toNat, by rw [if_pos h9], ?_⟩
    intro X
    have hns1 : ¬(55296 ≤ c.toNat ∧ c.toNat ≤ 56319) := by omega
    have hns2 : ¬(56320 ≤ c.toNat ∧ c.toNat ≤ 57343) := by omega
    simp [readUEscape, readHex4_hex4 h9, hns1, hns2, Char.ofNat_toNat]
  · refine ⟨hex4 (55296 + (c.toNat - 65536) / 1024) ++
      '\\' :: 'u' :: hex4 (56320 + (c.toNat - 65536) % 1024),
      by rw [if_neg h9]; simp, ?_⟩
    intro X
    rw [List.append_assoc]
    simp only [List.cons_append]
    rw [readUEscape_pair _ _ _ (by omega) (by omega) (by omega) (by omega)
      (by omega) (by omega)]
    rw [show 65536 + (55296 + (c.toNat - 65536) / 1024 - 55296) * 1024 +
        (56320 + (c.toNat - 65536) % 1024 - 56320) = c.toNat from by omega,
      Char.ofNat_toNat]

theorem jpStr_escString : ∀ (s : Str) (fuel : Nat) (rest : Str),
    s.length < fuel →
    jpStr fuel (escString s ++ '"' :: rest) = some (s, rest) := by
  intro s
  induction s with
  | nil =>
    intro fuel rest hf
    match fuel, hf with
    | f + 1, _ => simp [escString, jpStr]
  | cons c cs ih =>
    intro fuel rest hf
    match fuel, hf with
    | f + 1, hf =>
      have hcs : cs.length < f := by
        simp at hf
        omega
      show jpStr (f + 1) ((escChar c ++ escString cs) ++ '"' :: rest) = _
      rw [List.append_assoc]
      unfold escChar
      by_cases h1 : c = '"'
      · subst h1
        simp [jpStr, ih f rest hcs]
      · rw [if_neg h1]
        by_cases h2 : c = '\\'
        · subst h2
          simp [jpStr, ih f rest hcs]
        · rw [if_neg h2]
          by_cases h3 : c.toNat = 10
          · rw [if_pos h3]
            have : Char.ofNat 10 = c := by rw [← h3, Char.ofNat_toNat]
            simp [jpStr, ih f rest hcs, this]
            try exact this
          · rw [if_neg h3]
            by_cases h4 : c.toNat = 13
            · rw [if_pos h4]
              have : Char.ofNat 13 = c := by rw [← h4, Char.ofNat_toNat]
              simp [jpStr, ih f rest hcs, this]
              try exact this
            · rw [if_neg h4]
              by_cases h5 : c.toNat = 9
              · rw [if_pos h5]
                have : Char.ofNat 9 = c := by rw [← h5, Char.ofNat_toNat]
                simp [jpStr, ih f rest hcs, this]
                try exact this
              · rw [if_neg h5]
                by_cases h6 : c.toNat = 8
                · rw [if_pos h6]
                  have : Char.ofNat 8 = c := by rw [← h6, Char.ofNat_toNat]
                  simp [jpStr, ih f rest hcs, this]
                  try exact this
                · rw [if_neg h6]
                  by_cases h7 : c.toNat = 12
                  · rw [if_pos h7]
                    have : Char.ofNat 12 = c := by rw [← h7, Char.ofNat_toNat]
                    simp [jpStr, ih f rest hcs, this]
                    try exact this
                  · rw [if_neg h7]
                    by_cases h8 : 32 ≤ c.toNat ∧ c.toNat ≤ 126
                    · rw [if_pos h8]
                      have hq : ¬(c = '"') := h1
                      have hb : ¬(c = '\\') := h2
                      simp only [List.cons_append, List.nil_append, jpStr,
                        if_neg hq, if_neg hb]
                      simp [ih f rest hcs]
                    · rw [if_neg h8]
                      obtain ⟨body, hbody, hread⟩ := readUEscape_uEscape c
                      rw [hbody]
                      simp [jpStr, hread, ih f rest hcs]

theorem escChar_ne_nil (c : Char) : escChar c ≠ [] := by
  unfold escChar uEscape
  split_ifs <;> simp

theorem escString_length (s : Str) : s.length ≤ (escString s).length := by
  induction s with
  | nil => simp [escString]
  | cons c cs ih =>
    have := escChar_ne_nil c
    have h1 : 1 ≤ (escChar c).length := by
      cases h : escChar c with
      | nil => exact absurd h this
      | cons x xs => simp
    simp only [escString, List.length_append, List.length_cons]
    omega

theorem natDigits_all_digits (n : Nat) : ∀ c ∈ natDigits n, (dv c).isSome := by
  induction n using Nat.strong_induction_on with
  | _ n ih =>
    rw [natDigits]
    split
    · intro c hc
      simp at hc
      subst hc
      simp [dv_digitChar (by omega : n ≤ 9)]
    · intro c hc
      simp at hc
      cases hc with
      | inl h =>
        exact ih (n / 10) (Nat.div_lt_self (by omega) (by omega)) c h
      | inr h =>
        subst h
        simp [dv_digitChar (by omega : n % 10 ≤ 9)]

/-- The text after a rendered value must not begin with a digit, or the greedy
number scan would swallow it. -/
def noDigitHead (s : Str) : Prop :=
  ∀ c, s.head? = some c → dv c = Option.none

theorem takeWhile_append_all {p : α → Bool} (xs ys : List α)
    (h : ∀ c ∈ xs, p c = true) :
    (xs ++ ys).takeWhile p = xs ++ ys.takeWhile p := by
  induction xs with
  | nil => simp
  | cons x l ih =>
    have hx : p x = true := h x (by simp)
    simp only [List.cons_append, List.takeWhile_cons, hx, if_true]
    rw [ih (fun c hc => h c (by simp [hc]))]

theorem dropWhile_append_all {p : α → Bool} (xs ys : List α)
    (h : ∀ c ∈ xs, p c = true) :
    (xs ++ ys).dropWhile p = ys.dropWhile p := by
  induction xs with
  | nil => simp
  | cons x l ih =>
    have hx : p x = true := h x (by simp)
    simp only [List.cons_append, List.dropWhile_cons, hx, if_true]
    exact ih (fun c hc => h c (by simp [hc]))

theorem jpNat_natDigits (n : Nat) (rest : Str) (hnd : noDigitHead rest) :
    jpNat (natDigits n ++ rest) = some (n, rest) := by
  have halldig : ∀ ch ∈ natDigits n, ((dv ch).isSome : Bool) = true := by
    intro ch hch
    simpa using natDigits_all_digits n ch hch
  have hrt : rest.takeWhile (fun ch => (dv ch).isSome) = [] := by
    cases rest with
    | nil => simp
    | cons r rs =>
      have := hnd r (by simp)
      simp [List.takeWhile_cons, this]
  have hrd : rest.dropWhile (fun ch => (dv ch).isSome) = rest := by
    cases rest with
    | nil => simp
    | cons r rs =>
      have := hnd r (by simp)
      simp [List.dropWhile_cons, this]
  have htake : (natDigits n ++ rest).takeWhile (fun ch => (dv ch).isSome) =
      natDigits n := by
    rw [takeWhile_append_all _ _ halldig, hrt, List.append_nil]
  have hdrop : (natDigits n ++ rest).dropWhile (fun ch => (dv ch).isSome) =
      rest := by
    rw [dropWhile_append_all _ _ halldig, hrd]
  have hparse : parseNatAux 0 (natDigits n) = some n := by
    simpa using parseNatAux_natDigits n 0
  obtain ⟨d, hd, hh⟩ := natDigits_head n
  cases hdig : natDigits n with
  | nil => exact absurd hdig (natDigits_ne_nil n)
  | cons c cs =>
    rw [hdig] at hh
    simp only [List.head?_cons, Option.some.injEq] at hh
    subst hh
    rw [hdig] at halldig htake hdrop hparse
    show jpNat ((digitChar d :: cs) ++ rest) = some (n, rest)
    unfold jpNat
    simp only [List.cons_append, dv_digitChar hd]
    rw [show digitChar d :: (cs ++ rest) = (digitChar d :: cs) ++ rest from by
      simp]
    rw [htake, hdrop, hparse]
    simp

theorem digitChar_ne {d : Nat} (h : d ≤ 9) {ch : Char}
    (hch : ch.toNat < 48 ∨ 57 < ch.toNat) : digitChar d ≠ ch := by
  intro he
  have := digitChar_toNat h
  rw [he] at this
  omega

theorem encodeJVal_ne_nil (v : PyVal) : encodeJVal v ≠ [] := by
  cases v with
  | none => simp [encodeJVal, litS]
  | int n =>
    show intStr n ≠ []
    unfold intStr
    split
    · simp
    · exact natDigits_ne_nil _
  | str s => simp [encodeJVal]
  | bool b => cases b <;> simp [encodeJVal, litS]
  | list l => simp [encodeJVal]
  | dict d => simp [encodeJVal]

theorem encodeJVal_length_pos (v : PyVal) : 1 ≤ (encodeJVal v).length := by
  cases h : encodeJVal v with
  | nil => exact absurd h (encodeJVal_ne_nil v)
  | cons c cs => simp

theorem encodeJVal_head (v : PyVal) :
    ∃ hc tl, encodeJVal v = hc :: tl ∧ hc ≠ ']' ∧ hc ≠ closeBrace := by
  cases v with
  | none => exact ⟨'n', _, rfl, by decide, by decide⟩
  | bool b =>
    cases b
    · exact ⟨'f', _, rfl, by decide, by decide⟩
    · exact ⟨'t', _, rfl, by decide, by decide⟩
  | str s => exact ⟨'"', _, rfl, by decide, by decide⟩
  | list l => exact ⟨'[', _, rfl, by decide, by decide⟩
  | dict d => exact ⟨openBrace, _, rfl, by decide, by decide⟩
  | int n =>
    show ∃ hc tl, intStr n = hc :: tl ∧ hc ≠ ']' ∧ hc ≠ closeBrace
    unfold intStr
    by_cases hn : n < 0
    · exact ⟨'-', _, by rw [if_pos hn], by decide, by decide⟩
    · obtain ⟨d, hd, hh⟩ := natDigits_head n.toNat
      cases hdig : natDigits n.toNat with
      | nil => exact absurd hdig (natDigits_ne_nil _)
      | cons c cs =>
        rw [hdig] at hh
        simp only [List.head?_cons, Option.some.injEq] at hh
        subst hh
        exact ⟨digitChar d, cs, by rw [if_neg hn],
          digitChar_ne hd (by decide), digitChar_ne hd (by decide)⟩

theorem encodeJItems_cons (x : PyVal) (xs : List PyVal) {hc : Char} {tl : Str}
    (hxe : encodeJVal x = hc :: tl) :
    ∃ T, encodeJItems (x :: xs) = hc :: T := by
  cases xs with
  | nil => exact ⟨tl, by simpa [encodeJItems] using hxe⟩
  | cons y ys =>
    refine ⟨tl ++ ',' :: encodeJItems (y :: ys), ?_⟩
    show encodeJVal x ++ ',' :: encodeJItems (y :: ys) = _
    rw [hxe]
    simp

theorem encodeJEntries_cons (kv : Str × PyVal) (es : List (Str × PyVal)) :
    ∃ T, encodeJEntries (kv :: es) = '"' :: T := by
  obtain ⟨k, v⟩ := kv
  cases es with
  | nil => exact ⟨_, rfl⟩
  | cons e es2 => exact ⟨_, rfl⟩

end TLink
